import Mathlib

/-!
# Verification of compliance-operator behaviors

A shallow embedding, in Lean 4, of the parts of the ComplianceAsCode
compliance-operator that the specification describes:

* the ARF result parser (`pkg/utils/parse_arf_result.go`): status and
  severity mapping, check-result naming;
* rule metadata merging (`pkg/utils/rule_metadata.go`);
* the refactored CEL scanner command (rule/variable gathering, exit code);
* the resource fetcher (streaming dispatch, non-fatal API errors, jq
  filtering, MachineConfig streaming);
* the XCCDF tailoring document generation (`pkg/xccdf`).

Go maps from string to string are modelled as association lists
(`List (String × String)`) with `List.lookup`-style access; Go's
`(value, error)` returns are modelled with `Except String`; XML nodes are
modelled by structures carrying exactly the attributes and child texts the
embedded functions inspect (`SelectAttr` on a missing attribute yields the
empty string, as in the `xmlquery` library).
-/

namespace ComplianceOperator

/-! ## ARF result parsing (`pkg/utils/parse_arf_result.go`) -/

/-- `compv1alpha1.ComplianceCheckStatus` values used by the parser. -/
inductive ComplianceCheckStatus
  | Pass
  | Fail
  | Info
  | Manual
  | Error
  | NotApplicable
  | NoResult
  deriving DecidableEq, Repr

/-- `compv1alpha1.ComplianceCheckResultSeverity` values. -/
inductive ComplianceCheckResultSeverity
  | Unknown
  | Info
  | Low
  | Medium
  | High
  deriving DecidableEq, Repr

/-- The `<rule-result>` node of an ARF report, as seen by the parser: the
inner text of its `result` child element (`none` when the child is absent). -/
structure ResultNode where
  resultText : Option String
  deriving DecidableEq, Repr

/-- The `<Rule>` node of the datastream, as seen by the parser: its
`severity` attribute (`SelectAttr` returns `""` when absent), the texts of
its title and rationale children, and its warnings rendered as markdown. -/
structure RuleNode where
  severity : String
  title : String
  rationale : String
  warnings : List String
  deriving DecidableEq, Repr

/-- `rulePrefix` constant from `parse_arf_result.go`. -/
def rulePrefix : String := "xccdf_org.ssgproject.content_rule_"

/-- Go's `strings.TrimPrefix`: drop `pre` when it is a prefix, else return
`s` unchanged. -/
def trimPrefix (s pre : String) : String :=
  if s.startsWith pre then s.drop pre.length else s

/-- `nameFromId` from `parse_arf_result.go`: strip the XCCDF rule prefix,
replace underscores with dashes, lowercase, and prepend the scan name. -/
def nameFromId (scanName ruleIdRef : String) : String :=
  let ruleName := trimPrefix ruleIdRef rulePrefix
  let dnsFriendlyFixId := (ruleName.replace "_" "-").toLower
  scanName ++ "-" ++ dnsFriendlyFixId

/-- `mapComplianceCheckResultStatus` from `parse_arf_result.go`. -/
def mapComplianceCheckResultStatus (result : ResultNode) :
    Except String ComplianceCheckStatus :=
  match result.resultText with
  | none => .error "result node has no 'result' attribute"
  | some t =>
    if t = "pass" ∨ t = "fixed" then .ok .Pass
    else if t = "fail" then .ok .Fail
    else if t = "error" ∨ t = "unknown" then .ok .Error
    else if t = "notchecked" then .ok .Manual
    else if t = "informational" then .ok .Info
    else if t = "notapplicable" then .ok .NotApplicable
    else if t = "notselected" then .ok .NoResult
    else .error ("couldn't match " ++ t ++ " to a known state")

/-- `mapComplianceCheckResultSeverity` from `parse_arf_result.go`. -/
def mapComplianceCheckResultSeverity (rule : RuleNode) :
    Except String ComplianceCheckResultSeverity :=
  if rule.severity = "" then .error "result node has no 'severity' attribute"
  else if rule.severity = "unknown" then .ok .Unknown
  else if rule.severity = "info" then .ok .Info
  else if rule.severity = "low" then .ok .Low
  else if rule.severity = "medium" then .ok .Medium
  else if rule.severity = "high" then .ok .High
  else .ok .Unknown

/-- `complianceCheckResultDescription` from `parse_arf_result.go`. -/
def complianceCheckResultDescription (rule : RuleNode) : String :=
  (if rule.title ≠ "" then rule.title ++ "\n" else "") ++ rule.rationale

/-- The `compv1alpha1.ComplianceCheckResult` fields the parser fills in. -/
structure ComplianceCheckResult where
  name : String
  «namespace» : String
  id : String
  status : ComplianceCheckStatus
  severity : ComplianceCheckResultSeverity
  instructions : String
  description : String
  warnings : List String
  deriving DecidableEq, Repr

/-- `newComplianceCheckResult` from `parse_arf_result.go`: returns `none`
(no object produced) when the mapped status is `NoResult`, propagates the
status/severity mapping errors, and otherwise builds the check result. -/
def newComplianceCheckResult (result : ResultNode) (rule : RuleNode)
    (ruleIdRef instructions scanName ns : String) :
    Except String (Option ComplianceCheckResult) := do
  let name := nameFromId scanName ruleIdRef
  let mappedStatus ← mapComplianceCheckResultStatus result
  if mappedStatus = .NoResult then
    return none
  let mappedSeverity ← mapComplianceCheckResultSeverity rule
  return some {
    name := name
    «namespace» := ns
    id := ruleIdRef
    status := mappedStatus
    severity := mappedSeverity
    instructions := instructions
    description := complianceCheckResultDescription rule
    warnings := rule.warnings
  }

/-- The rule's DNS-friendly name as the spec words it: the
`xccdf_org.ssgproject.content_rule_` prefix stripped, every underscore
replaced by a dash, all letters lowercased. Stated from the spec for
comparison with `nameFromId`. -/
def specRuleDNSName (ruleIdRef : String) : String :=
  ((trimPrefix ruleIdRef rulePrefix).replace "_" "-").toLower

/-! ## Rule metadata merging (`pkg/utils/rule_metadata.go`) -/

/-- `operatorManagedPrefixes` from `rule_metadata.go`. -/
def operatorManagedPrefixes : List String :=
  ["compliance.openshift.io/", "complianceoperator.openshift.io/",
   "complianceascode.io/"]

/-- `IsOperatorManagedKey` from `rule_metadata.go`. -/
def IsOperatorManagedKey (key : String) : Bool :=
  operatorManagedPrefixes.any fun pre => key.startsWith pre

/-- Association-list model of a Go `map[string]string` lookup. -/
def mapGet : List (String × String) → String → Option String
  | [], _ => none
  | (k, v) :: rest, key => if k = key then some v else mapGet rest key

/-- `filterCustomKeys` from `rule_metadata.go`: keep only the entries whose
keys are not operator-managed. -/
def filterCustomKeys (m : List (String × String)) : List (String × String) :=
  m.filter fun kv => !IsOperatorManagedKey kv.1

/-- `GetCustomMetadata` from `rule_metadata.go`. -/
def GetCustomMetadata (labels annotations : List (String × String)) :
    List (String × String) × List (String × String) :=
  (filterCustomKeys labels, filterCustomKeys annotations)

/-- `mergeIfNotExists` from `rule_metadata.go`: add entries of `src` into
`dst` only when the key is not already present in `dst`. -/
def mergeIfNotExists (dst : List (String × String)) :
    List (String × String) → List (String × String)
  | [] => dst
  | (k, v) :: rest =>
      mergeIfNotExists (if (mapGet dst k).isSome then dst else dst ++ [(k, v)]) rest

/-- `MergeCustomMetadata` from `rule_metadata.go`. -/
def MergeCustomMetadata
    (targetLabels customLabels targetAnnotations customAnnotations :
      List (String × String)) :
    List (String × String) × List (String × String) :=
  (mergeIfNotExists targetLabels customLabels,
   mergeIfNotExists targetAnnotations customAnnotations)

/-! ## Refactored CEL scanner (`cmd/manager/cel-scanner-refactored`) -/

/-- `celscanner.CheckResultStatus` values the scanner command inspects. -/
inductive CelCheckStatus
  | Pass
  | Fail
  | Error
  | NotApplicable
  deriving DecidableEq, Repr

/-- A `celscanner.CheckResult` as far as the exit-code computation reads it. -/
structure CelCheckResult where
  id : String
  status : CelCheckStatus
  deriving DecidableEq, Repr

/-- The body of the exit-code loop in `runPlatformScan`: a `Fail` result
sets the code to `2`, otherwise an `Error` result sets it to `-1`, any
other status leaves it unchanged. -/
def exitCodeStep (exitCode : Int) (result : CelCheckResult) : Int :=
  if result.status = .Fail then 2
  else if result.status = .Error then -1
  else exitCode

/-- The exit-code loop of `runPlatformScan`: `exitCode` starts at `0` and
the loop body runs over the results in order. -/
def computeExitCode (results : List CelCheckResult) : Int :=
  results.foldl exitCodeStep 0

/-- `saveExitCode`: the file name and content written under the
check-result directory. -/
def saveExitCode (checkResultDir : String) (exitCode : Int) : String × String :=
  (checkResultDir ++ "/exit_code", toString exitCode)

/-- A rule selection of a `TailoredProfile` (`tp.Spec.EnableRules` etc.). -/
structure RuleSelection where
  name : String
  deriving DecidableEq, Repr

/-- A `v1alpha1.CustomRule` as far as the duplicate check reads it. -/
structure CustomRule where
  name : String
  deriving DecidableEq, Repr

/-- The loop body of `getSelectedCustomRules`: walk the concatenated
selections, erroring when the current selection's name matches an already
fetched rule, otherwise fetching the rule via the client. -/
def getSelectedCustomRulesLoop (client : String → Except String CustomRule) :
    List CustomRule → List RuleSelection → Except String (List CustomRule)
  | selectedRules, [] => .ok selectedRules
  | selectedRules, selection :: rest =>
    if selectedRules.any fun rule => rule.name = selection.name then
      .error ("Rule '" ++ selection.name ++ "' appears twice in selections")
    else
      match client selection.name with
      | .error e => .error ("Fetching rule: " ++ e)
      | .ok rule => getSelectedCustomRulesLoop client (selectedRules ++ [rule]) rest

/-- `getSelectedCustomRules`: iterate over
`EnableRules ++ DisableRules ++ ManualRules`. -/
def getSelectedCustomRules (client : String → Except String CustomRule)
    (enableRules disableRules manualRules : List RuleSelection) :
    Except String (List CustomRule) :=
  getSelectedCustomRulesLoop client [] (enableRules ++ (disableRules ++ manualRules))

/-- A `SetValues` entry of a `TailoredProfile` spec. -/
structure VariableValueSpec where
  name : String
  value : String
  deriving DecidableEq, Repr

/-- A `v1alpha1.Variable` as far as `getSetVariables` reads it. -/
structure CelVariable where
  name : String
  value : String
  deriving DecidableEq, Repr

/-- The loop of `getSetVariables`: walk `tp.Spec.SetValues`, erroring on a
name already fetched, otherwise fetching the variable and overriding its
value with the one from the tailored profile. -/
def getSetVariablesLoop (client : String → Except String CelVariable) :
    List CelVariable → List VariableValueSpec → Except String (List CelVariable)
  | setVars, [] => .ok setVars
  | setVars, sVar :: rest =>
    if setVars.any fun iVar => iVar.name = sVar.name then
      .error ("Variables '" ++ sVar.name ++ "' appears twice in selections")
    else
      match client sVar.name with
      | .error e => .error ("Fetching variable: " ++ e)
      | .ok fetched =>
          getSetVariablesLoop client (setVars ++ [{ fetched with value := sVar.value }]) rest

/-- `getSetVariables` runs the loop on `tp.Spec.SetValues` starting empty. -/
def getSetVariables (client : String → Except String CelVariable)
    (setValues : List VariableValueSpec) : Except String (List CelVariable) :=
  getSetVariablesLoop client [] setValues

/-! ## Resource fetching (`cmd/manager/scap.go`): `fetch`, `filter`,
streamer dispatch and the MachineConfig streamer -/

/-- A `utils.ResourcePath` as the fetcher uses it. -/
structure ResourcePath where
  objPath : String
  dumpPath : String
  filter : String
  suppressWarning : Bool
  deriving DecidableEq, Repr

/-- Outcome of `streamer.Stream` on a URI, classified the way `fetch`
classifies it: a successful body, or an error recognized by
`meta.IsNoMatchError` / `kerrors.IsForbidden` / `kerrors.IsNotFound`,
or any other error. The carried string is the error's message. -/
inductive StreamResult
  | ok (body : String)
  | errNotFound (msg : String)
  | errForbidden (msg : String)
  | errNoMatch (msg : String)
  | errOther (msg : String)
  deriving DecidableEq, Repr

/-- One item produced by the gojq iterator: either an error value or an
ordinary value (carried in its serialized form; the JSON/YAML
re-serialization performed by `filter` is kept abstract). -/
inductive JqValue
  | err (msg : String)
  | val (s : String)
  deriving DecidableEq, Repr

/-- The inputs `filter` consumes from the gojq library for one body and
one filter expression: a possible parse error from `gojq.Parse`, a possible
`json.Unmarshal` error on the body, and the iterator's output stream. -/
structure JqEval where
  parseError : Option String
  unmarshalError : Option String
  outputs : List JqValue
  deriving DecidableEq, Repr

/-- Result of the Go `filter` function, keeping apart the `(out, err)`
combinations `fetch` distinguishes: a clean value, a first value together
with the wrapped `MoreThanOneObjErr`, the wrapped `NullValErr` (with a nil
payload), or any other (fatal) error. -/
inductive FilterOutcome
  | ok (out : String)
  | moreThanOne (out : String) (errMsg : String)
  | nullVal (errMsg : String)
  | fatal (msg : String)
  deriving DecidableEq, Repr

/-- The `filter` function from `scap.go`: parse the filter, unmarshal the
body, then read the iterator. No first output is fatal; a first output that
is an error becomes `NullValErr` exactly when its message ends in
`": null"`; otherwise the first value is kept, and a second output turns
the result into `MoreThanOneObjErr` while still carrying the first value. -/
def filterRun (fltr : String) (e : JqEval) : FilterOutcome :=
  match e.parseError with
  | some m => .fatal ("could not create filter '" ++ fltr ++ "': " ++ m)
  | none =>
    match e.unmarshalError with
    | some m => .fatal ("Error unmarshalling json: " ++ m)
    | none =>
      match e.outputs with
      | [] => .fatal "couldn't get filtered object"
      | .err m :: _ =>
        if String.endsWith m ": null" then
          .nullVal ("Skipping empty filter result from '" ++ fltr ++
            "': no value was returned from the filter")
        else .fatal m
      | .val s :: rest =>
        match rest with
        | [] => .ok s
        | _ :: _ =>
          .moreThanOne s ("Skipping extra results from filter '" ++ fltr ++
            "': more than one object returned from the filter")

/-- Go map assignment `results[k] = v` on the association-list model:
overwrite an existing binding, else append. -/
def mapSet (m : List (String × String)) (k v : String) :
    List (String × String) :=
  if (mapGet m k).isSome then
    m.map fun kv => if kv.1 = k then (k, v) else kv
  else m ++ [(k, v)]

/-- The per-path warning `fetch` records for a non-fatal streaming error. -/
def couldNotFetchMsg (uri errMsg : String) : String :=
  "could not fetch " ++ uri ++ ": " ++ errMsg

/-- The placeholder payload stored for a 404:
`"# kube-api-error=" + kerrors.ReasonForError(err)`, which is
`"NotFound"` for a not-found error. -/
def notFoundPlaceholder : String := "# kube-api-error=" ++ "NotFound"

/-- The state `fetch` threads through its loop: the `results` map and the
accumulated warnings. -/
structure FetchState where
  results : List (String × String)
  warnings : List String
  deriving DecidableEq, Repr

/-- The loop of `fetch` from `scap.go`. `streamOf` stands for
`streamDispatcher(uri).Stream(ctx, rfClients)` and `jqOf body fltr` for
what the gojq library produces inside `filter`. Mirrors the per-path
closure: non-fatal streaming errors record a warning (unless suppressed)
and, for 404 only, store the placeholder; other streaming errors abort;
an empty body is skipped; a filter is applied when set, with
`MoreThanOneObjErr` and `NullValErr` downgraded to warnings. -/
def fetchLoop (streamOf : String → StreamResult)
    (jqOf : String → String → JqEval) :
    FetchState → List ResourcePath → Except String FetchState
  | st, [] => .ok st
  | st, rpath :: rest =>
    match streamOf rpath.objPath with
    | .errNoMatch m =>
      let warnings :=
        if rpath.suppressWarning then st.warnings
        else st.warnings ++ [couldNotFetchMsg rpath.objPath m]
      fetchLoop streamOf jqOf { st with warnings := warnings } rest
    | .errForbidden m =>
      let warnings :=
        if rpath.suppressWarning then st.warnings
        else st.warnings ++ [couldNotFetchMsg rpath.objPath m]
      fetchLoop streamOf jqOf { st with warnings := warnings } rest
    | .errNotFound m =>
      let warnings :=
        if rpath.suppressWarning then st.warnings
        else st.warnings ++ [couldNotFetchMsg rpath.objPath m]
      let results := mapSet st.results rpath.dumpPath notFoundPlaceholder
      fetchLoop streamOf jqOf { results := results, warnings := warnings } rest
    | .errOther m => .error ("streaming URIs failed: " ++ m)
    | .ok body =>
      if body = "" then fetchLoop streamOf jqOf st rest
      else if rpath.filter = "" then
        fetchLoop streamOf jqOf
          { st with results := mapSet st.results rpath.dumpPath body } rest
      else
        match filterRun rpath.filter (jqOf body rpath.filter) with
        | .ok out =>
          fetchLoop streamOf jqOf
            { st with results := mapSet st.results rpath.dumpPath out } rest
        | .moreThanOne out errMsg =>
          fetchLoop streamOf jqOf
            { results := mapSet st.results rpath.dumpPath out,
              warnings := st.warnings ++ [errMsg] } rest
        | .nullVal errMsg =>
          fetchLoop streamOf jqOf
            { results := mapSet st.results rpath.dumpPath "",
              warnings := st.warnings ++
                ["couldn't filter '" ++ body ++ "': " ++ errMsg] } rest
        | .fatal m =>
          .error ("couldn't filter '" ++ body ++ "': " ++ m)

/-- `fetch` from `scap.go`, starting from empty results and warnings. -/
def fetch (streamOf : String → StreamResult)
    (jqOf : String → String → JqEval) (objects : List ResourcePath) :
    Except String FetchState :=
  fetchLoop streamOf jqOf { results := [], warnings := [] } objects

/-! ### Streamer dispatch and the MachineConfig streamer -/

/-- The two streamer implementations `getStreamerFn` can return. -/
inductive Streamer
  | mc
  | uri (uri : String)
  deriving DecidableEq, Repr

/-- The URI that is special-cased to the MachineConfig streamer. -/
def machineConfigsURI : String :=
  "/apis/machineconfiguration.openshift.io/v1/machineconfigs"

/-- `getStreamerFn` from `scap.go`. -/
def getStreamerFn (uri : String) : Streamer :=
  if uri = machineConfigsURI then .mc else .uri uri

/-- The embedded ignition payload of a MachineConfig
(`mc.Spec.Config.Raw`): empty raw bytes, a parseable ignition config
carrying its `storage.files` list (other ignition content abstracted as
`rest`), or unparseable bytes. -/
inductive McRawConfig
  | empty
  | valid (storageFiles : List String) (rest : String)
  | invalid (raw : String)
  deriving DecidableEq, Repr

/-- A MachineConfig as far as `filterMcList` reads it. -/
structure MachineConfig where
  name : String
  rawConfig : McRawConfig
  deriving DecidableEq, Repr

/-- `filterMcList` from `scap.go`: for each MachineConfig with a non-empty
raw ignition payload, parse it (an unparseable payload fails the whole
call), drop `Storage.Files`, and re-marshal; configs with an empty payload
pass through unchanged. -/
def filterMcList : List MachineConfig → Except String (List MachineConfig)
  | [] => .ok []
  | mc :: rest =>
    match mc.rawConfig with
    | .empty =>
      match filterMcList rest with
      | .error e => .error e
      | .ok rest' => .ok (mc :: rest')
    | .valid _ r =>
      match filterMcList rest with
      | .error e => .error e
      | .ok rest' => .ok ({ mc with rawConfig := .valid [] r } :: rest')
    | .invalid _ => .error ("cannot parse MC " ++ mc.name)

/-- The `Limit` the MachineConfig streamer passes to each List call
(`const pageSize = 5` in `mcStreamer.Stream`). -/
def mcStreamerPageSize : Nat := 5

/-- One page returned by a paged List call: the items and the continue
token of the returned list. -/
structure McPage where
  items : List MachineConfig
  continueToken : String
  deriving DecidableEq, Repr

/-- The paging loop of `mcStreamer.Stream`: consume pages in order,
filtering each batch and appending it to the accumulated list, until a
page comes back with an empty continue token. The page sequence stands for
the successive answers of the API server. -/
def mcStreamLoop : List McPage → Except String (List MachineConfig)
  | [] => .ok []
  | page :: rest =>
    match filterMcList page.items with
    | .error e => .error e
    | .ok batch =>
      if page.continueToken = "" then .ok batch
      else
        match mcStreamLoop rest with
        | .error e => .error e
        | .ok more => .ok (batch ++ more)

/-! ## Tailoring document generation (`pkg/xccdf`) -/

/-- `XCCDFNamespace` constant from `pkg/xccdf`. -/
def XCCDFNamespace : String := "compliance.openshift.io"

/-- `XCCDFURI` constant from `pkg/xccdf`. -/
def XCCDFURI : String := "http://checklists.nist.gov/xccdf/1.2"

/-- An `xccdf-1.2:select` child element. -/
structure SelectElement where
  idRef : String
  selected : Bool
  deriving DecidableEq, Repr

/-- An `xccdf-1.2:set-value` child element. -/
structure SetValueElement where
  idRef : String
  value : String
  deriving DecidableEq, Repr

/-- An `xccdf-1.2:title` or `xccdf-1.2:description` child. -/
structure TitleOrDescriptionElement where
  override : Bool
  value : String
  deriving DecidableEq, Repr

/-- The `xccdf-1.2:Profile` element built by `TailoredProfileToXML`. The
Go struct marshals its fields in declaration order, so `selections` come
before `values` in the document. `extends` is a string attribute with
`omitempty`: it is absent from the document exactly when empty. -/
structure ProfileElement where
  id : String
  extends_ : String
  title : Option TitleOrDescriptionElement
  description : Option TitleOrDescriptionElement
  selections : List SelectElement
  values : List SetValueElement
  deriving DecidableEq, Repr

/-- The `xccdf-1.2:Tailoring` root element. -/
structure TailoringElement where
  xmlNamespaceURI : String
  id : String
  benchmarkHref : String
  versionTime : String
  versionValue : String
  profile : ProfileElement
  deriving DecidableEq, Repr

/-- A rule selection's resolved `cmpv1alpha1.Rule` (only `ID` is read). -/
structure CRRule where
  id : String
  deriving DecidableEq, Repr

/-- A `cmpv1alpha1.Variable` as the tailoring generator reads it. -/
structure CRVariable where
  id : String
  value : String
  deriving DecidableEq, Repr

/-- The base `cmpv1alpha1.Profile` (only `ID` is read). -/
structure CRProfile where
  id : String
  deriving DecidableEq, Repr

/-- A `cmpv1alpha1.ProfileBundle` (only `Spec.ContentFile` is read). -/
structure ProfileBundle where
  contentFile : String
  deriving DecidableEq, Repr

/-- The `TailoredProfile` fields the XML generator reads. -/
structure TailoredProfile where
  name : String
  title : String
  description : String
  enableRules : List RuleSelection
  disableRules : List RuleSelection
  manualRules : List RuleSelection
  deriving DecidableEq, Repr

/-- `GetXCCDFProfileID` from `pkg/xccdf`. -/
def GetXCCDFProfileID (tp : TailoredProfile) : String :=
  "xccdf_" ++ XCCDFNamespace ++ "_profile_" ++ tp.name

/-- `getTailoringID` from `pkg/xccdf`. -/
def getTailoringID (tp : TailoredProfile) : String :=
  "xccdf_" ++ XCCDFNamespace ++ "_tailoring_" ++ tp.name

/-- `getSelectElementFromCRRule` from `pkg/xccdf`. -/
def getSelectElementFromCRRule (rule : CRRule) (enable : Bool) : SelectElement :=
  { idRef := rule.id, selected := enable }

/-- `getSelections` from `pkg/xccdf`: enable selections first (selected),
then disable selections (deselected), then manual selections (selected).
The `rules` map is modelled as a function, assuming (as the caller
guarantees) every selected name resolves. -/
def getSelections (tp : TailoredProfile) (rules : String → CRRule) :
    List SelectElement :=
  (tp.enableRules.map fun s => getSelectElementFromCRRule (rules s.name) true) ++
  (tp.disableRules.map fun s => getSelectElementFromCRRule (rules s.name) false) ++
  (tp.manualRules.map fun s => getSelectElementFromCRRule (rules s.name) true)

/-- `getValuesFromVariables` from `pkg/xccdf`. -/
def getValuesFromVariables (vars : List CRVariable) : List SetValueElement :=
  vars.map fun v => { idRef := v.id, value := v.value }

/-- The structure-building part of `TailoredProfileToXML` (everything
before `xml.MarshalIndent`; `time.Now()` is passed in as `now`). -/
def tailoredProfileToTailoringElement (now : String) (tp : TailoredProfile)
    (p : Option CRProfile) (pb : ProfileBundle) (rules : String → CRRule)
    (vars : List CRVariable) : TailoringElement :=
  { xmlNamespaceURI := XCCDFURI
    id := getTailoringID tp
    benchmarkHref := "/content/" ++ pb.contentFile
    versionTime := now
    versionValue := "1"
    profile :=
      { id := GetXCCDFProfileID tp
        extends_ := match p with | some base => base.id | none => ""
        title :=
          if tp.title ≠ "" then some { override := true, value := tp.title }
          else none
        description :=
          if tp.description ≠ "" then
            some { override := true, value := tp.description }
          else none
        selections := getSelections tp rules
        values := getValuesFromVariables vars } }

/-- A child of the Profile element, in document order. -/
inductive ProfileChild
  | sel (e : SelectElement)
  | setval (e : SetValueElement)
  deriving DecidableEq, Repr

/-- The `select`/`set-value` children of the Profile in document order:
Go's `encoding/xml` marshals struct fields in declaration order, so all
`selections` precede all `values`. -/
def profileChildren (p : ProfileElement) : List ProfileChild :=
  p.selections.map .sel ++ p.values.map .setval

/-- The `extends` attribute as serialized: absent (`none`) exactly when
the field is empty, per the `omitempty` tag. -/
def extendsAttr (p : ProfileElement) : Option String :=
  if p.extends_ = "" then none else some p.extends_

/-! ### Lemmas about the exit-code loop -/

lemma exitCodeStep_foldl_neutral {l : List CelCheckResult}
    (h : ∀ r ∈ l, r.status ≠ .Fail ∧ r.status ≠ .Error) (init : Int) :
    l.foldl exitCodeStep init = init := by
  induction l generalizing init with
  | nil => rfl
  | cons a l ih =>
    have ha := h a (List.mem_cons_self a l)
    have hstep : exitCodeStep init a = init := by
      simp [exitCodeStep, ha.1, ha.2]
    rw [List.foldl_cons, hstep]
    exact ih (fun r hr => h r (List.mem_cons_of_mem a hr)) init

/-! ### Lemmas about duplicate detection in the CEL scanner -/

lemma getSelectedCustomRulesLoop_dup_error
    (client : String → Except String CustomRule)
    (hclient : ∀ n, ∃ r, client n = .ok r ∧ r.name = n)
    (sels : List RuleSelection) :
    ∀ acc : List CustomRule,
      (acc.map CustomRule.name).Nodup →
      ¬ (acc.map CustomRule.name ++ sels.map RuleSelection.name).Nodup →
      ∃ dup, dup ∈ sels.map RuleSelection.name ∧
        getSelectedCustomRulesLoop client acc sels =
          .error ("Rule '" ++ dup ++ "' appears twice in selections") := by
  induction sels with
  | nil =>
    intro acc hacc hdup
    rw [List.map_nil, List.append_nil] at hdup
    exact absurd hacc hdup
  | cons sel rest ih =>
    intro acc hacc hdup
    have hany : ((acc.any fun rule => rule.name = sel.name) = true) ↔
        sel.name ∈ acc.map CustomRule.name := by
      simp [List.any_eq_true, List.mem_map]
    by_cases hin : sel.name ∈ acc.map CustomRule.name
    · refine ⟨sel.name, by simp, ?_⟩
      unfold getSelectedCustomRulesLoop
      rw [if_pos (hany.mpr hin)]
    · obtain ⟨r, hcr, hrn⟩ := hclient sel.name
      have hstep : getSelectedCustomRulesLoop client acc (sel :: rest) =
          if (acc.any fun rule => rule.name = sel.name) = true then
            Except.error ("Rule '" ++ sel.name ++ "' appears twice in selections")
          else match client sel.name with
            | .error e => .error ("Fetching rule: " ++ e)
            | .ok rule => getSelectedCustomRulesLoop client (acc ++ [rule]) rest := rfl
      have hred : getSelectedCustomRulesLoop client acc (sel :: rest) =
          getSelectedCustomRulesLoop client (acc ++ [r]) rest := by
        rw [hstep, if_neg (fun hc => hin (hany.mp hc)), hcr]
      have hmap : (acc ++ [r]).map CustomRule.name =
          acc.map CustomRule.name ++ [sel.name] := by
        simp [hrn]
      have hacc' : ((acc ++ [r]).map CustomRule.name).Nodup := by
        rw [hmap]
        exact List.Nodup.append hacc (List.nodup_singleton _)
          fun a ha hb => hin ((List.mem_singleton.mp hb) ▸ ha)
      have hdup' :
          ¬ ((acc ++ [r]).map CustomRule.name ++ rest.map RuleSelection.name).Nodup := by
        rw [hmap, List.append_assoc]
        simpa using hdup
      obtain ⟨dup, hdmem, heq⟩ := ih (acc ++ [r]) hacc' hdup'
      exact ⟨dup, by simp only [List.map_cons, List.mem_cons]; exact Or.inr hdmem,
        hred.trans heq⟩

lemma getSetVariablesLoop_dup_error
    (client : String → Except String CelVariable)
    (hclient : ∀ n, ∃ v, client n = .ok v ∧ v.name = n)
    (setValues : List VariableValueSpec) :
    ∀ acc : List CelVariable,
      (acc.map CelVariable.name).Nodup →
      ¬ (acc.map CelVariable.name ++ setValues.map VariableValueSpec.name).Nodup →
      ∃ dup, dup ∈ setValues.map VariableValueSpec.name ∧
        getSetVariablesLoop client acc setValues =
          .error ("Variables '" ++ dup ++ "' appears twice in selections") := by
  induction setValues with
  | nil =>
    intro acc hacc hdup
    rw [List.map_nil, List.append_nil] at hdup
    exact absurd hacc hdup
  | cons sVar rest ih =>
    intro acc hacc hdup
    have hany : ((acc.any fun iVar => iVar.name = sVar.name) = true) ↔
        sVar.name ∈ acc.map CelVariable.name := by
      simp [List.any_eq_true, List.mem_map]
    by_cases hin : sVar.name ∈ acc.map CelVariable.name
    · refine ⟨sVar.name, by simp, ?_⟩
      unfold getSetVariablesLoop
      rw [if_pos (hany.mpr hin)]
    · obtain ⟨v, hcv, hvn⟩ := hclient sVar.name
      have hstep : getSetVariablesLoop client acc (sVar :: rest) =
          if (acc.any fun iVar => iVar.name = sVar.name) = true then
            Except.error ("Variables '" ++ sVar.name ++ "' appears twice in selections")
          else match client sVar.name with
            | .error e => .error ("Fetching variable: " ++ e)
            | .ok fetched =>
                getSetVariablesLoop client (acc ++ [{ fetched with value := sVar.value }]) rest := rfl
      have hred : getSetVariablesLoop client acc (sVar :: rest) =
          getSetVariablesLoop client (acc ++ [{ v with value := sVar.value }]) rest := by
        rw [hstep, if_neg (fun hc => hin (hany.mp hc)), hcv]
      have hmap : ((acc ++ [{ v with value := sVar.value }]).map CelVariable.name) =
          acc.map CelVariable.name ++ [sVar.name] := by
        simp [hvn]
      have hacc' : ((acc ++ [{ v with value := sVar.value }]).map CelVariable.name).Nodup := by
        rw [hmap]
        exact List.Nodup.append hacc (List.nodup_singleton _)
          fun a ha hb => hin ((List.mem_singleton.mp hb) ▸ ha)
      have hdup' :
          ¬ ((acc ++ [{ v with value := sVar.value }]).map CelVariable.name ++
            rest.map VariableValueSpec.name).Nodup := by
        rw [hmap, List.append_assoc]
        simpa using hdup
      obtain ⟨dup, hdmem, heq⟩ := ih (acc ++ [{ v with value := sVar.value }]) hacc' hdup'
      exact ⟨dup, by simp only [List.map_cons, List.mem_cons]; exact Or.inr hdmem,
        hred.trans heq⟩

/-! ### Lemmas about the resource fetcher -/

/-- One unfolding step of `fetchLoop` on a non-empty plan. -/
lemma fetchLoop_cons (streamOf : String → StreamResult)
    (jqOf : String → String → JqEval) (st : FetchState) (p : ResourcePath)
    (rest : List ResourcePath) :
    fetchLoop streamOf jqOf st (p :: rest) =
      match streamOf p.objPath with
      | .errNoMatch m =>
          fetchLoop streamOf jqOf
            ⟨st.results,
              if p.suppressWarning then st.warnings
              else st.warnings ++ [couldNotFetchMsg p.objPath m]⟩ rest
      | .errForbidden m =>
          fetchLoop streamOf jqOf
            ⟨st.results,
              if p.suppressWarning then st.warnings
              else st.warnings ++ [couldNotFetchMsg p.objPath m]⟩ rest
      | .errNotFound m =>
          fetchLoop streamOf jqOf
            ⟨mapSet st.results p.dumpPath notFoundPlaceholder,
              if p.suppressWarning then st.warnings
              else st.warnings ++ [couldNotFetchMsg p.objPath m]⟩ rest
      | .errOther m => .error ("streaming URIs failed: " ++ m)
      | .ok body =>
          if body = "" then fetchLoop streamOf jqOf st rest
          else if p.filter = "" then
            fetchLoop streamOf jqOf
              ⟨mapSet st.results p.dumpPath body, st.warnings⟩ rest
          else
            match filterRun p.filter (jqOf body p.filter) with
            | .ok out =>
                fetchLoop streamOf jqOf
                  ⟨mapSet st.results p.dumpPath out, st.warnings⟩ rest
            | .moreThanOne out errMsg =>
                fetchLoop streamOf jqOf
                  ⟨mapSet st.results p.dumpPath out,
                    st.warnings ++ [errMsg]⟩ rest
            | .nullVal errMsg =>
                fetchLoop streamOf jqOf
                  ⟨mapSet st.results p.dumpPath "",
                    st.warnings ++
                      ["couldn't filter '" ++ body ++ "': " ++ errMsg]⟩ rest
            | .fatal m => .error ("couldn't filter '" ++ body ++ "': " ++ m) :=
  rfl

/-- A plan whose every path streams a non-fatal API error is fetched
without a scan-wide error. -/
lemma fetchLoop_ok_of_nonfatal (streamOf : String → StreamResult)
    (jqOf : String → String → JqEval) :
    ∀ (ps : List ResourcePath) (st : FetchState),
      (∀ q ∈ ps, (∃ m, streamOf q.objPath = .errNotFound m) ∨
        (∃ m, streamOf q.objPath = .errForbidden m) ∨
        (∃ m, streamOf q.objPath = .errNoMatch m)) →
      ∃ st', fetchLoop streamOf jqOf st ps = .ok st' := by
  intro ps
  induction ps with
  | nil => exact fun st _ => ⟨st, rfl⟩
  | cons p rest ih =>
    intro st h
    have hrest := fun q hq => h q (List.mem_cons_of_mem p hq)
    rcases h p (List.mem_cons_self p rest) with ⟨m, hm⟩ | ⟨m, hm⟩ | ⟨m, hm⟩ <;>
      rw [fetchLoop_cons, hm] <;> exact ih _ hrest

/-! ### Lemmas about the MachineConfig streamer -/

lemma filterMcList_strips :
    ∀ (l out : List MachineConfig), filterMcList l = .ok out →
      ∀ mc ∈ out, ∀ files r, mc.rawConfig = .valid files r → files = [] := by
  intro l
  induction l with
  | nil =>
    intro out h mc hmc
    injection h with h
    subst h
    exact absurd hmc (List.not_mem_nil mc)
  | cons mc0 rest ih =>
    intro out h mc hmc files r hraw
    unfold filterMcList at h
    cases hc : mc0.rawConfig with
    | invalid raw => rw [hc] at h; cases h
    | empty =>
      rw [hc] at h
      cases hrest : filterMcList rest with
      | error e => rw [hrest] at h; cases h
      | ok rest' =>
        rw [hrest] at h
        injection h with h
        subst h
        rcases List.mem_cons.mp hmc with he | hm
        · subst he
          rw [hc] at hraw
          cases hraw
        · exact ih rest' hrest mc hm files r hraw
    | valid files0 r0 =>
      rw [hc] at h
      cases hrest : filterMcList rest with
      | error e => rw [hrest] at h; cases h
      | ok rest' =>
        rw [hrest] at h
        injection h with h
        subst h
        rcases List.mem_cons.mp hmc with he | hm
        · subst he
          injection hraw with hfiles hr
          exact hfiles.symm
        · exact ih rest' hrest mc hm files r hraw

lemma mcStreamLoop_strips :
    ∀ (pages : List McPage) (out : List MachineConfig),
      mcStreamLoop pages = .ok out →
      ∀ mc ∈ out, ∀ files r, mc.rawConfig = .valid files r → files = [] := by
  intro pages
  induction pages with
  | nil =>
    intro out h mc hmc
    injection h with h
    subst h
    exact absurd hmc (List.not_mem_nil mc)
  | cons page rest ih =>
    intro out h mc hmc files r hraw
    unfold mcStreamLoop at h
    cases hbatch : filterMcList page.items with
    | error e => rw [hbatch] at h; cases h
    | ok batch =>
      rw [hbatch] at h
      replace h : (if page.continueToken = "" then Except.ok batch
          else match mcStreamLoop rest with
            | .error e => .error e
            | .ok more => .ok (batch ++ more)) = Except.ok out := h
      by_cases htok : page.continueToken = ""
      · rw [if_pos htok] at h
        injection h with h
        subst h
        exact filterMcList_strips page.items _ hbatch mc hmc files r hraw
      · rw [if_neg htok] at h
        cases hmore : mcStreamLoop rest with
        | error e => rw [hmore] at h; cases h
        | ok more =>
          rw [hmore] at h
          injection h with h
          subst h
          rcases List.mem_append.mp hmc with hm | hm
          · exact filterMcList_strips page.items batch hbatch mc hm files r hraw
          · exact ih more hmore mc hm files r hraw

/-! ### Lemmas about the metadata merge -/

lemma mapGet_append_left {dst : List (String × String)} {k : String}
    (h : (mapGet dst k).isSome) (l : List (String × String)) :
    mapGet (dst ++ l) k = mapGet dst k := by
  induction dst with
  | nil => simp [mapGet] at h
  | cons hd tl ih =>
    obtain ⟨hk, hv⟩ := hd
    by_cases hkk : hk = k
    · simp [mapGet, hkk]
    · simp only [mapGet, if_neg hkk] at h ⊢
      exact ih h

lemma mergeIfNotExists_preserves {k : String}
    (src : List (String × String)) (dst : List (String × String))
    (h : (mapGet dst k).isSome) :
    mapGet (mergeIfNotExists dst src) k = mapGet dst k := by
  induction src generalizing dst with
  | nil => simp [mergeIfNotExists]
  | cons hd tl ih =>
    obtain ⟨hk, hv⟩ := hd
    simp only [mergeIfNotExists]
    by_cases hs : (mapGet dst hk).isSome
    · rw [if_pos hs]
      exact ih dst h
    · rw [if_neg hs]
      have hpres : mapGet (dst ++ [(hk, hv)]) k = mapGet dst k :=
        mapGet_append_left h _
      have h' : (mapGet (dst ++ [(hk, hv)]) k).isSome := by
        rw [hpres]; exact h
      rw [ih _ h', hpres]

lemma filterCustomKeys_drops {k : String}
    (hk : IsOperatorManagedKey k = true) (m : List (String × String)) :
    mapGet (filterCustomKeys m) k = none := by
  induction m with
  | nil => rfl
  | cons hd tl ih =>
    obtain ⟨k', v'⟩ := hd
    cases hop : IsOperatorManagedKey k' with
    | true =>
      have heq : filterCustomKeys ((k', v') :: tl) = filterCustomKeys tl := by
        simp only [filterCustomKeys, List.filter_cons, hop, Bool.not_true,
          Bool.false_eq_true, if_false]
      rw [heq]
      exact ih
    | false =>
      have heq : filterCustomKeys ((k', v') :: tl) =
          (k', v') :: filterCustomKeys tl := by
        simp only [filterCustomKeys, List.filter_cons, hop, Bool.not_false,
          if_true]
      have hne : k' ≠ k := fun he => by rw [he, hk] at hop; exact Bool.true_eq_false.mp hop
      rw [heq]
      simp only [mapGet, if_neg hne]
      exact ih

/-! ## Claim theorems -/

/-- C1: the aggregator's status mapping sends `pass` and `fixed` to `Pass`,
`fail` to `Fail`, `error` and `unknown` to `Error`, `notchecked` to
`Manual`, `informational` to `Info`, `notapplicable` to `NotApplicable`;
and for a `notselected` result `newComplianceCheckResult` produces no
object at all. -/
theorem arf_status_mapping_exact :
    mapComplianceCheckResultStatus ⟨some "pass"⟩ = .ok .Pass ∧
    mapComplianceCheckResultStatus ⟨some "fixed"⟩ = .ok .Pass ∧
    mapComplianceCheckResultStatus ⟨some "fail"⟩ = .ok .Fail ∧
    mapComplianceCheckResultStatus ⟨some "error"⟩ = .ok .Error ∧
    mapComplianceCheckResultStatus ⟨some "unknown"⟩ = .ok .Error ∧
    mapComplianceCheckResultStatus ⟨some "notchecked"⟩ = .ok .Manual ∧
    mapComplianceCheckResultStatus ⟨some "informational"⟩ = .ok .Info ∧
    mapComplianceCheckResultStatus ⟨some "notapplicable"⟩ = .ok .NotApplicable ∧
    ∀ rule ruleIdRef instructions scanName ns,
      newComplianceCheckResult ⟨some "notselected"⟩ rule ruleIdRef
        instructions scanName ns = .ok none := by
  refine ⟨rfl, rfl, rfl, rfl, rfl, rfl, rfl, rfl, ?_⟩
  intro rule ruleIdRef instructions scanName ns
  rfl

/-- C2: the check-result object name is `scanName ++ "-" ++ dns(ruleIdRef)`
with `dns` stripping the XCCDF rule prefix, dashing underscores and
lowercasing; being a pure function of the two strings, two aggregation
runs of the same scan give the same name for the same rule. -/
theorem check_result_name_stable (scanName ruleIdRef : String) :
    nameFromId scanName ruleIdRef =
      scanName ++ "-" ++ specRuleDNSName ruleIdRef := rfl

/-- C9: the severity mapping errs exactly when the rule node's severity
attribute is absent (the `xmlquery` `SelectAttr` convention renders an
absent attribute as `""`); any non-empty unrecognized severity maps to
`Unknown` without an error. -/
theorem arf_severity_mapping_total (rule : RuleNode) :
    ((∃ e, mapComplianceCheckResultSeverity rule = .error e) ↔
      rule.severity = "") ∧
    (rule.severity ≠ "" →
      rule.severity ∉ (["unknown", "info", "low", "medium", "high"] : List String) →
      mapComplianceCheckResultSeverity rule = .ok .Unknown) := by
  constructor
  · constructor
    · rintro ⟨e, he⟩
      by_contra h0
      simp only [mapComplianceCheckResultSeverity, if_neg h0] at he
      split_ifs at he
    · intro h0
      exact ⟨"result node has no 'severity' attribute",
        by simp [mapComplianceCheckResultSeverity, h0]⟩
  · intro h0 hmem
    simp only [List.mem_cons, List.not_mem_nil, or_false, not_or] at hmem
    obtain ⟨h1, h2, h3, h4, h5⟩ := hmem
    simp [mapComplianceCheckResultSeverity, h0, h1, h2, h3, h4, h5]

/-- Witness for C9 at a concrete rule node with severity `critical`. -/
theorem arf_severity_mapping_total_witness :
    mapComplianceCheckResultSeverity ⟨"critical", "", "", []⟩ = .ok .Unknown :=
  (arf_severity_mapping_total ⟨"critical", "", "", []⟩).2
    (by decide) (by decide)

/-- C3: merging user metadata never changes a key already present in the
target map; keys with an operator-managed prefix (and exactly the three
prefixes of `operatorManagedPrefixes`) are filtered from user metadata
before merging; hence an operator-prefixed key keeps the operator's value
through the merge. -/
theorem operator_metadata_precedence
    (targetLabels targetAnnotations userLabels userAnnotations :
      List (String × String)) :
    (∀ k, IsOperatorManagedKey k =
      (k.startsWith "compliance.openshift.io/" ||
        (k.startsWith "complianceoperator.openshift.io/" ||
          k.startsWith "complianceascode.io/"))) ∧
    (∀ k, IsOperatorManagedKey k = true →
      mapGet (GetCustomMetadata userLabels userAnnotations).1 k = none ∧
      mapGet (GetCustomMetadata userLabels userAnnotations).2 k = none) ∧
    (∀ k v, mapGet targetLabels k = some v →
      mapGet (MergeCustomMetadata targetLabels
        (GetCustomMetadata userLabels userAnnotations).1
        targetAnnotations
        (GetCustomMetadata userLabels userAnnotations).2).1 k = some v) ∧
    (∀ k v, mapGet targetAnnotations k = some v →
      mapGet (MergeCustomMetadata targetLabels
        (GetCustomMetadata userLabels userAnnotations).1
        targetAnnotations
        (GetCustomMetadata userLabels userAnnotations).2).2 k = some v) := by
  refine ⟨?_, ?_, ?_, ?_⟩
  · intro k
    simp [IsOperatorManagedKey, operatorManagedPrefixes, List.any_cons,
      List.any_nil]
  · intro k hk
    exact ⟨filterCustomKeys_drops hk userLabels,
      filterCustomKeys_drops hk userAnnotations⟩
  · intro k v hv
    have h := mergeIfNotExists_preserves
      (filterCustomKeys userLabels) targetLabels (k := k) (by rw [hv]; rfl)
    simpa [MergeCustomMetadata, GetCustomMetadata, hv] using h
  · intro k v hv
    have h := mergeIfNotExists_preserves
      (filterCustomKeys userAnnotations) targetAnnotations (k := k)
      (by rw [hv]; rfl)
    simpa [MergeCustomMetadata, GetCustomMetadata, hv] using h

/-- Witness for C3: the operator-managed check-status label keeps the
operator's value even when the user metadata carries the same key. -/
theorem operator_metadata_precedence_witness :
    mapGet (MergeCustomMetadata
      [("compliance.openshift.io/check-status", "FAIL")]
      (GetCustomMetadata
        [("compliance.openshift.io/check-status", "PASS"), ("team", "sec")]
        []).1
      []
      (GetCustomMetadata
        [("compliance.openshift.io/check-status", "PASS"), ("team", "sec")]
        []).2).1
      "compliance.openshift.io/check-status" = some "FAIL" :=
  (operator_metadata_precedence
    [("compliance.openshift.io/check-status", "FAIL")] []
    [("compliance.openshift.io/check-status", "PASS"), ("team", "sec")]
    []).2.2.1 _ _ rfl

/-- C4 counterexample: the results list `[Fail, Error]` contains a `Fail`,
yet the recorded exit code is `-1`, not `2` — the loop lets a later
`Error` overwrite the code set by an earlier `Fail`, so the code is not
order-independent as claimed. -/
theorem cel_exit_code_counterexample :
    ((⟨"rule-1", .Fail⟩ : CelCheckResult) ∈
      ([⟨"rule-1", .Fail⟩, ⟨"rule-2", .Error⟩] : List CelCheckResult)) ∧
    computeExitCode [⟨"rule-1", .Fail⟩, ⟨"rule-2", .Error⟩] = -1 ∧
    computeExitCode [⟨"rule-1", .Fail⟩, ⟨"rule-2", .Error⟩] ≠ 2 := by
  refine ⟨List.mem_cons_self _ _, by decide, by decide⟩

/-- C4 amended: the recorded exit code is `0` when no result is `Fail` or
`Error`; otherwise it is decided by the **last** result in the list whose
status is `Fail` or `Error` — `2` for `Fail` and `-1` for `Error`. -/
theorem cel_exit_code_amended (results : List CelCheckResult) :
    ((∀ r ∈ results, r.status ≠ .Fail ∧ r.status ≠ .Error) →
      computeExitCode results = 0) ∧
    (∀ pre r post, results = pre ++ r :: post →
      (∀ r' ∈ post, r'.status ≠ .Fail ∧ r'.status ≠ .Error) →
      (r.status = .Fail → computeExitCode results = 2) ∧
      (r.status = .Error → computeExitCode results = -1)) := by
  constructor
  · intro h
    exact exitCodeStep_foldl_neutral h 0
  · intro pre r post hsplit hpost
    have hfold : computeExitCode results =
        exitCodeStep (pre.foldl exitCodeStep 0) r := by
      rw [hsplit]
      unfold computeExitCode
      rw [List.foldl_append, List.foldl_cons]
      exact exitCodeStep_foldl_neutral hpost _
    constructor
    · intro hf
      rw [hfold]
      simp [exitCodeStep, hf]
    · intro he
      rw [hfold]
      have : r.status ≠ .Fail := by rw [he]; intro hc; cases hc
      simp [exitCodeStep, this, he]

/-- Witness for C4 amended: with an `Error` followed by a `Fail`, the last
`Fail`/`Error` entry is the `Fail`, and the recorded code is `2`. -/
theorem cel_exit_code_amended_witness :
    computeExitCode [⟨"rule-1", .Error⟩, ⟨"rule-2", .Fail⟩] = 2 :=
  ((cel_exit_code_amended _).2 [⟨"rule-1", .Error⟩] ⟨"rule-2", .Fail⟩ []
    rfl (by intro r' hr'; cases hr')).1 rfl

/-- C10: when the concatenated rule selections of the tailored profile
contain a repeated name, `getSelectedCustomRules` returns an error naming
the duplicate (and, being an `error`, yields no rules); likewise a name
repeated in `setValues` makes `getSetVariables` return an error. The
client hypothesis states the Kubernetes `Get` semantics: a successful get
of name `n` fills in an object with name `n`. -/
theorem cel_duplicate_selection_rejected :
    (∀ (client : String → Except String CustomRule),
      (∀ n, ∃ r, client n = .ok r ∧ r.name = n) →
      ∀ enableRules disableRules manualRules : List RuleSelection,
        ¬ ((enableRules ++ (disableRules ++ manualRules)).map
            RuleSelection.name).Nodup →
        ∃ dup, dup ∈ (enableRules ++ (disableRules ++ manualRules)).map
            RuleSelection.name ∧
          getSelectedCustomRules client enableRules disableRules manualRules =
            .error ("Rule '" ++ dup ++ "' appears twice in selections")) ∧
    (∀ (client : String → Except String CelVariable),
      (∀ n, ∃ v, client n = .ok v ∧ v.name = n) →
      ∀ setValues : List VariableValueSpec,
        ¬ (setValues.map VariableValueSpec.name).Nodup →
        ∃ dup, dup ∈ setValues.map VariableValueSpec.name ∧
          getSetVariables client setValues =
            .error ("Variables '" ++ dup ++ "' appears twice in selections")) := by
  constructor
  · intro client hclient enableRules disableRules manualRules hdup
    exact getSelectedCustomRulesLoop_dup_error client hclient _ []
      List.nodup_nil (by simpa using hdup)
  · intro client hclient setValues hdup
    exact getSetVariablesLoop_dup_error client hclient _ []
      List.nodup_nil (by simpa using hdup)

/-- Witness for C10: the rule name `acme-rule` selected both in
`enableRules` and `disableRules` is rejected. -/
theorem cel_duplicate_selection_rejected_witness :
    ∃ dup, dup ∈ (([⟨"acme-rule"⟩] ++ ([⟨"acme-rule"⟩] ++ [])) :
        List RuleSelection).map RuleSelection.name ∧
      getSelectedCustomRules (fun n => .ok ⟨n⟩) [⟨"acme-rule"⟩] [⟨"acme-rule"⟩] [] =
        .error ("Rule '" ++ dup ++ "' appears twice in selections") :=
  cel_duplicate_selection_rejected.1 (fun n => .ok ⟨n⟩)
    (fun n => ⟨⟨n⟩, rfl, rfl⟩) [⟨"acme-rule"⟩] [⟨"acme-rule"⟩] []
    (by decide)

/-- C5: streaming errors classified NotFound, Forbidden or no-matching-kind
do not fail the fetch: the loop records a warning (unless the path
suppresses warnings) and continues; only the NotFound case additionally
stores the `# kube-api-error=NotFound` placeholder under the dump path;
any other streaming error aborts the whole fetch; and a plan made only of
such non-fatal paths fetches successfully. -/
theorem fetch_api_errors_nonfatal (streamOf : String → StreamResult)
    (jqOf : String → String → JqEval) (st : FetchState) (p : ResourcePath)
    (rest : List ResourcePath) :
    notFoundPlaceholder = "# kube-api-error=NotFound" ∧
    (∀ m, streamOf p.objPath = .errNotFound m →
      fetchLoop streamOf jqOf st (p :: rest) =
        fetchLoop streamOf jqOf
          ⟨mapSet st.results p.dumpPath notFoundPlaceholder,
            if p.suppressWarning then st.warnings
            else st.warnings ++ [couldNotFetchMsg p.objPath m]⟩ rest) ∧
    (∀ m, streamOf p.objPath = .errForbidden m →
      fetchLoop streamOf jqOf st (p :: rest) =
        fetchLoop streamOf jqOf
          ⟨st.results,
            if p.suppressWarning then st.warnings
            else st.warnings ++ [couldNotFetchMsg p.objPath m]⟩ rest) ∧
    (∀ m, streamOf p.objPath = .errNoMatch m →
      fetchLoop streamOf jqOf st (p :: rest) =
        fetchLoop streamOf jqOf
          ⟨st.results,
            if p.suppressWarning then st.warnings
            else st.warnings ++ [couldNotFetchMsg p.objPath m]⟩ rest) ∧
    (∀ m, streamOf p.objPath = .errOther m →
      fetchLoop streamOf jqOf st (p :: rest) =
        .error ("streaming URIs failed: " ++ m)) ∧
    (∀ ps : List ResourcePath,
      (∀ q ∈ ps, (∃ m, streamOf q.objPath = .errNotFound m) ∨
        (∃ m, streamOf q.objPath = .errForbidden m) ∨
        (∃ m, streamOf q.objPath = .errNoMatch m)) →
      ∃ st', fetch streamOf jqOf ps = .ok st') := by
  refine ⟨rfl, ?_, ?_, ?_, ?_, ?_⟩
  · intro m hm
    rw [fetchLoop_cons, hm]
  · intro m hm
    rw [fetchLoop_cons, hm]
  · intro m hm
    rw [fetchLoop_cons, hm]
  · intro m hm
    rw [fetchLoop_cons, hm]
  · intro ps hps
    exact fetchLoop_ok_of_nonfatal streamOf jqOf ps _ hps

/-- Witness for C5: a single-path plan whose stream returns NotFound
fetches successfully, with the placeholder stored and a warning recorded. -/
theorem fetch_api_errors_nonfatal_witness :
    fetch (fun _ => .errNotFound "the server could not find the requested resource")
      (fun _ _ => ⟨none, none, []⟩)
      [⟨"/apis/foo.example/v1/bars", "/apis/foo.example/v1/bars", "", false⟩] =
      .ok ⟨[("/apis/foo.example/v1/bars", "# kube-api-error=NotFound")],
        ["could not fetch /apis/foo.example/v1/bars: the server could not find the requested resource"]⟩ := by
  have h := (fetch_api_errors_nonfatal
    (fun _ => .errNotFound "the server could not find the requested resource")
    (fun _ _ => ⟨none, none, []⟩) ⟨[], []⟩
    ⟨"/apis/foo.example/v1/bars", "/apis/foo.example/v1/bars", "", false⟩
    []).2.1 "the server could not find the requested resource" rfl
  exact h.trans rfl

/-- C6: a jq filter yielding more than one value keeps the first value
and downgrades `MoreThanOneObjErr` to a warning; a filter resolving to
null (a gojq error whose message ends in `": null"`) records a warning and
stores an empty payload; a parse error, an unmarshal error, an empty
output stream, or any other error value is fatal to the whole fetch. -/
theorem fetch_filter_errors (streamOf : String → StreamResult)
    (jqOf : String → String → JqEval) (st : FetchState) (p : ResourcePath)
    (rest : List ResourcePath) :
    (∀ fltr s y rest', filterRun fltr ⟨none, none, .val s :: y :: rest'⟩ =
      .moreThanOne s ("Skipping extra results from filter '" ++ fltr ++
        "': more than one object returned from the filter")) ∧
    (∀ body out errMsg, streamOf p.objPath = .ok body → body ≠ "" →
      p.filter ≠ "" →
      filterRun p.filter (jqOf body p.filter) = .moreThanOne out errMsg →
      fetchLoop streamOf jqOf st (p :: rest) =
        fetchLoop streamOf jqOf
          ⟨mapSet st.results p.dumpPath out, st.warnings ++ [errMsg]⟩ rest) ∧
    (∀ fltr m rest', m.endsWith ": null" = true →
      filterRun fltr ⟨none, none, .err m :: rest'⟩ =
        .nullVal ("Skipping empty filter result from '" ++ fltr ++
          "': no value was returned from the filter")) ∧
    (∀ body errMsg, streamOf p.objPath = .ok body → body ≠ "" →
      p.filter ≠ "" →
      filterRun p.filter (jqOf body p.filter) = .nullVal errMsg →
      fetchLoop streamOf jqOf st (p :: rest) =
        fetchLoop streamOf jqOf
          ⟨mapSet st.results p.dumpPath "",
            st.warnings ++ ["couldn't filter '" ++ body ++ "': " ++ errMsg]⟩
          rest) ∧
    (∀ fltr pm ue outs, filterRun fltr ⟨some pm, ue, outs⟩ =
      .fatal ("could not create filter '" ++ fltr ++ "': " ++ pm)) ∧
    (∀ fltr um outs, filterRun fltr ⟨none, some um, outs⟩ =
      .fatal ("Error unmarshalling json: " ++ um)) ∧
    (∀ fltr, filterRun fltr ⟨none, none, []⟩ =
      .fatal "couldn't get filtered object") ∧
    (∀ fltr m rest', m.endsWith ": null" = false →
      filterRun fltr ⟨none, none, .err m :: rest'⟩ = .fatal m) ∧
    (∀ body m, streamOf p.objPath = .ok body → body ≠ "" → p.filter ≠ "" →
      filterRun p.filter (jqOf body p.filter) = .fatal m →
      fetchLoop streamOf jqOf st (p :: rest) =
        .error ("couldn't filter '" ++ body ++ "': " ++ m)) := by
  refine ⟨fun fltr s y rest' => rfl, ?_, ?_, ?_,
    fun fltr pm ue outs => rfl, fun fltr um outs => rfl, fun fltr => rfl,
    ?_, ?_⟩
  · intro body out errMsg hbody hne hfltr hrun
    rw [fetchLoop_cons, hbody]
    simp only [if_neg hne, if_neg hfltr, hrun]
  · intro fltr m rest' hnull
    simp [filterRun, hnull]
  · intro body errMsg hbody hne hfltr hrun
    rw [fetchLoop_cons, hbody]
    simp only [if_neg hne, if_neg hfltr, hrun]
  · intro fltr m rest' hnull
    simp [filterRun, hnull]
  · intro body m hbody hne hfltr hrun
    rw [fetchLoop_cons, hbody]
    simp only [if_neg hne, if_neg hfltr, hrun]

/-- Witness for C6: a filter producing the two values `"A"`, `"B"` stores
`"A"` and records the more-than-one-object warning, and the fetch
continues to a successful end. -/
theorem fetch_filter_errors_witness :
    fetch (fun _ => .ok "\x7b\x7d")
      (fun _ _ => ⟨none, none, [.val "A", .val "B"]⟩)
      [⟨"/api/v1/pods", "/api/v1/pods", ".items", false⟩] =
      .ok ⟨[("/api/v1/pods", "A")],
        ["Skipping extra results from filter '.items': more than one object returned from the filter"]⟩ := by
  have h := (fetch_filter_errors (fun _ => .ok "\x7b\x7d")
    (fun _ _ => ⟨none, none, [.val "A", .val "B"]⟩) ⟨[], []⟩
    ⟨"/api/v1/pods", "/api/v1/pods", ".items", false⟩ []).2.1
    "\x7b\x7d" "A"
    "Skipping extra results from filter '.items': more than one object returned from the filter"
    rfl (by decide) (by decide) rfl
  exact h.trans rfl

/-- C7: exactly the MachineConfig list URI dispatches to the MachineConfig
streamer and every other URI gets a plain URI streamer; the streamer lists
in pages of limit 5 and stops at the first empty continue token; in its
output every MachineConfig that carried a parseable non-empty ignition
payload appears with its `storage.files` list emptied. -/
theorem machineconfig_streamer_dispatch (uri : String) :
    (getStreamerFn uri = .mc ↔ uri = machineConfigsURI) ∧
    machineConfigsURI = "/apis/machineconfiguration.openshift.io/v1/machineconfigs" ∧
    mcStreamerPageSize = 5 ∧
    (uri ≠ machineConfigsURI → getStreamerFn uri = .uri uri) ∧
    (∀ page rest, page.continueToken = "" →
      mcStreamLoop (page :: rest) = filterMcList page.items) ∧
    (∀ pages out, mcStreamLoop pages = .ok out →
      ∀ mc ∈ out, ∀ files r, mc.rawConfig = .valid files r → files = []) := by
  refine ⟨?_, rfl, rfl, ?_, ?_, mcStreamLoop_strips⟩
  · constructor
    · intro h
      by_contra hne
      rw [getStreamerFn, if_neg hne] at h
      cases h
    · intro h
      rw [getStreamerFn, if_pos h]
  · intro h
    rw [getStreamerFn, if_neg h]
  · intro page rest htok
    unfold mcStreamLoop
    cases hbatch : filterMcList page.items with
    | error e => rfl
    | ok batch =>
      show (if page.continueToken = "" then Except.ok batch
        else match mcStreamLoop rest with
          | .error e => .error e
          | .ok more => .ok (batch ++ more)) = Except.ok batch
      rw [if_pos htok]

/-- Witness for C7: the MachineConfig URI dispatches to the MC streamer,
another URI gets a plain streamer, a single page with an empty token is
just filtered, and a config with an ignition payload comes out with empty
`storage.files`. -/
theorem machineconfig_streamer_dispatch_witness :
    getStreamerFn "/apis/machineconfiguration.openshift.io/v1/machineconfigs" =
      .mc ∧
    getStreamerFn "/version" = .uri "/version" ∧
    mcStreamLoop [⟨[⟨"mc-a", .valid ["/etc/motd"] "ign"⟩], ""⟩] =
      filterMcList [⟨"mc-a", .valid ["/etc/motd"] "ign"⟩] ∧
    ([] : List String) = [] :=
  ⟨(machineconfig_streamer_dispatch machineConfigsURI).1.mpr rfl,
   (machineconfig_streamer_dispatch "/version").2.2.2.1 (by decide),
   (machineconfig_streamer_dispatch "/version").2.2.2.2.1
     ⟨[⟨"mc-a", .valid ["/etc/motd"] "ign"⟩], ""⟩ [] rfl,
   (machineconfig_streamer_dispatch "/version").2.2.2.2.2
     [⟨[⟨"mc-a", .valid ["/etc/motd"] "ign"⟩], ""⟩]
     [⟨"mc-a", .valid [] "ign"⟩] rfl ⟨"mc-a", .valid [] "ign"⟩
     (List.mem_cons_self _ _) [] "ign" rfl⟩

/-- C8: the generated tailoring document has the XCCDF 1.2 namespace, the
`xccdf_compliance.openshift.io_tailoring_<name>` id, a Profile with id
`xccdf_compliance.openshift.io_profile_<name>` whose `extends` attribute
is the base profile's XCCDF id exactly when a base profile is supplied
(and absent otherwise), and whose children appear in document order:
selects for enable rules (selected), disable rules (deselected), manual
rules (selected), then one set-value per variable. -/
theorem tailoring_document_structure (now : String) (tp : TailoredProfile)
    (p : Option CRProfile) (pb : ProfileBundle) (rules : String → CRRule)
    (vars : List CRVariable) :
    (tailoredProfileToTailoringElement now tp p pb rules vars).xmlNamespaceURI =
      "http://checklists.nist.gov/xccdf/1.2" ∧
    (tailoredProfileToTailoringElement now tp p pb rules vars).id =
      "xccdf_compliance.openshift.io_tailoring_" ++ tp.name ∧
    (tailoredProfileToTailoringElement now tp p pb rules vars).profile.id =
      "xccdf_compliance.openshift.io_profile_" ++ tp.name ∧
    (∀ base, p = some base → base.id ≠ "" →
      extendsAttr (tailoredProfileToTailoringElement now tp p pb rules vars).profile =
        some base.id) ∧
    (p = none →
      extendsAttr (tailoredProfileToTailoringElement now tp p pb rules vars).profile =
        none) ∧
    profileChildren (tailoredProfileToTailoringElement now tp p pb rules vars).profile =
      (tp.enableRules.map fun s => .sel ⟨(rules s.name).id, true⟩) ++
      (tp.disableRules.map fun s => .sel ⟨(rules s.name).id, false⟩) ++
      (tp.manualRules.map fun s => .sel ⟨(rules s.name).id, true⟩) ++
      (vars.map fun v => .setval ⟨v.id, v.value⟩) := by
  refine ⟨rfl, rfl, rfl, ?_, ?_, ?_⟩
  · intro base hbase hne
    subst hbase
    simp [tailoredProfileToTailoringElement, extendsAttr, hne]
  · intro hnone
    subst hnone
    rfl
  · simp only [profileChildren, tailoredProfileToTailoringElement,
      getSelections, getValuesFromVariables, getSelectElementFromCRRule,
      List.map_append, List.map_map, List.append_assoc]
    rfl

/-- Witness for C8: with a base profile supplied, the `extends` attribute
carries its XCCDF id; with none, the attribute is absent. -/
theorem tailoring_document_structure_witness :
    extendsAttr (tailoredProfileToTailoringElement "2024-01-01T00:00:00Z"
      ⟨"nist-moderate", "", "", [], [], []⟩
      (some ⟨"xccdf_org.ssgproject.content_profile_moderate"⟩)
      ⟨"ssg-ocp4-ds.xml"⟩ (fun n => ⟨n⟩) []).profile =
      some "xccdf_org.ssgproject.content_profile_moderate" ∧
    extendsAttr (tailoredProfileToTailoringElement "2024-01-01T00:00:00Z"
      ⟨"nist-moderate", "", "", [], [], []⟩ none
      ⟨"ssg-ocp4-ds.xml"⟩ (fun n => ⟨n⟩) []).profile = none :=
  ⟨(tailoring_document_structure "2024-01-01T00:00:00Z"
      ⟨"nist-moderate", "", "", [], [], []⟩
      (some ⟨"xccdf_org.ssgproject.content_profile_moderate"⟩)
      ⟨"ssg-ocp4-ds.xml"⟩ (fun n => ⟨n⟩) []).2.2.2.1
      ⟨"xccdf_org.ssgproject.content_profile_moderate"⟩ rfl (by decide),
   (tailoring_document_structure "2024-01-01T00:00:00Z"
      ⟨"nist-moderate", "", "", [], [], []⟩ none
      ⟨"ssg-ocp4-ds.xml"⟩ (fun n => ⟨n⟩) []).2.2.2.2.1 rfl⟩

end ComplianceOperator
